import Mathlib

/-!
Verification of the splatspace-space-status service (src/main.go).

The development shallowly embeds the program's core:
* the edge-monitor polling loop `monitorSwitch` (modelled by `monitorStep` /
  `monitorRun`),
* the log compaction routine `cleanupOldLogs` (modelled by `cleanupPass` /
  `cleanupOldLogs` over byte sequences represented as `List Char`),
* the HTTP handlers `handleOptIn` and `getStatus` together with the shared
  registry (the globals `state : bool` and `optInUsers : map[string]bool`),
* the logging sink configured with `log.LstdFlags | log.Lshortfile`
  (modelled by `logSinkLine`).

Timestamps are abstracted by `timeKey`, an order-embedding of calendar
fields (all parsed times carry the `Z` offset, so `time.After` agrees with
the lexicographic field order that `timeKey` encodes).
-/

set_option autoImplicit false

namespace SpaceStatus

/-! ### The GPIO level type (periph.io `gpio.Level`)

`type Level bool` with `Low = false`, `High = true`; the Go zero value of
`Level` is therefore `Low`. -/

abbrev Level := Bool

def low : Level := false

def high : Level := true

/-! ### Edge monitor (`monitorSwitch`, src/main.go lines 127-140)

The loop state is the local `lastState gpio.Level` together with the global
`state bool`; both start at their Go zero value `false`. -/

structure MonitorState where
  lastState : Level
  state : Bool
deriving DecidableEq, Repr

def initialMonitor : MonitorState := ⟨low, false⟩

/-- `fmt.Sprintf("Switch state changed to: %v", state)` -/
def switchMessage (st : Bool) : String :=
  "Switch state changed to: " ++ (if st then "true" else "false")

/-- One iteration of the `for` loop in `monitorSwitch`: read `currentState`;
if it differs from `lastState`, update `lastState`, set the global
`state = currentState == gpio.Low` and emit the message (sent to Slack and
to the log sink); otherwise do nothing. -/
def monitorStep (s : MonitorState) (currentState : Level) :
    MonitorState × Option String :=
  if currentState ≠ s.lastState then
    (⟨currentState, currentState == low⟩,
      some (switchMessage (currentState == low)))
  else
    (s, none)

/-- Run the monitor loop over a finite sequence of polled levels, collecting
the emitted messages in order. -/
def monitorRun : MonitorState → List Level → MonitorState × List String
  | s, [] => (s, [])
  | s, l :: ls =>
    let step := monitorStep s l
    ((monitorRun step.1 ls).1, step.2.toList ++ (monitorRun step.1 ls).2)

/-- Specification-side description of the emitted messages (spec section 4.1):
at each tick compare with the previous level, and on a difference emit
`"Switch state changed to: <newState>"` with `newState = (currentLevel == LOW)`. -/
def specEmits : Level → List Level → List String
  | _, [] => []
  | prev, l :: ls =>
    if l ≠ prev then switchMessage (l == low) :: specEmits l ls
    else specEmits prev ls

/-- Number of level changes between consecutive polls of an observed sequence
(spec section 8: notifications = changes between consecutive polls). -/
def adjChanges : List Level → Nat
  | a :: b :: rest => (if a ≠ b then 1 else 0) + adjChanges (b :: rest)
  | _ => 0

theorem monitorRun_eq_specEmits (ls : List Level) : ∀ s : MonitorState,
    (monitorRun s ls).2 = specEmits s.lastState ls := by
  induction ls with
  | nil => intro s; rfl
  | cons l ls ih =>
    intro s
    by_cases h : l = s.lastState
    · simp [monitorRun, monitorStep, specEmits, h, ih]
    · simp [monitorRun, monitorStep, specEmits, h, ih]

theorem specEmits_length (ls : List Level) : ∀ prev : Level,
    (specEmits prev ls).length = adjChanges (prev :: ls) := by
  induction ls with
  | nil => intro prev; rfl
  | cons l ls ih =>
    intro prev
    by_cases h : l = prev
    · subst h; simp [specEmits, adjChanges, ih l]
    · simp [specEmits, adjChanges, h, Ne.symm h, ih l, Nat.add_comm]

/-! ### State registry and HTTP surface (src/main.go lines 151-190) -/

/-- JSON body written by `getStatus`: `json.NewEncoder(w).Encode(map[string]bool
\x7b"state": state\x7d)` produces the object followed by a newline. -/
def statusJSON (b : Bool) : String :=
  "\x7b\"state\":" ++ (if b then "true" else "false") ++ "\x7d\n"

/-- `getStatus` handler: reads the global `state` and replies 200 with the
JSON body. -/
def getStatus (st : Bool) : Nat × String := (200, statusJSON st)

/-- The opt-in registry `optInUsers : map[string]bool` stores only `true`
values, so it is the finite set of its keys. -/
abbrev OptInSet := Finset String

/-- `optInUsers[userID] = true` -/
def optIn (id : String) (users : OptInSet) : OptInSet := insert id users

def slackVerificationToken : String := "your-slack-verification-token"

structure OptInReply where
  responseType : String
  text : String
deriving DecidableEq, Repr

/-- `handleOptIn` after form parsing: reject with 401 when `user_id` is empty
or the token mismatches, leaving the registry untouched; otherwise insert the
user and reply 200 with the ephemeral acknowledgment. The reply is the
`map[string]string` value handed to the JSON encoder. -/
def handleOptIn (userID token : String) (users : OptInSet) :
    Nat × Option OptInReply × OptInSet :=
  if userID = "" ∨ token ≠ slackVerificationToken then
    (401, none, users)
  else
    (200,
     some ⟨"ephemeral", "You have opted in for notifications, <@" ++ userID ++ ">."⟩,
     optIn userID users)

/-! ### Retention store (`cleanupOldLogs`, src/main.go lines 97-124)

File contents are byte sequences, modelled as `List Char` (all constants in
play are ASCII). `bytes.Split(data, "\n")` is `splitLines`; the loop body
appends each kept entry followed by `'\n'`, which is `joinNL`. -/

def consHead (c : Char) : List (List Char) → List (List Char)
  | [] => [[c]]
  | l :: ls => (c :: l) :: ls

/-- `bytes.Split(content, []byte("\n"))`. -/
def splitLines : List Char → List (List Char)
  | [] => [[]]
  | c :: rest =>
    if c = '\n' then [] :: splitLines rest else consHead c (splitLines rest)

/-- Rebuild the output file: each kept entry followed by a single `'\n'`. -/
def joinNL : List (List Char) → List Char
  | [] => []
  | k :: ks => k ++ '\n' :: joinNL ks

/-! #### RFC3339 parsing of a 20-byte prefix

`time.Parse(time.RFC3339, string(entry[:20]))` succeeds on a 20-byte input
exactly when it has the shape `dddd-dd-ddTdd:dd:ddZ` with in-range calendar
fields (month 1-12, day 1..daysInMonth, hour 0-23, minute/second 0-59); a
20-byte input leaves no room for a numeric offset or fractional seconds.
Since every such time is in UTC, `time.After` agrees with the lexicographic
order of the fields, which `timeKey` embeds into `Nat`. -/

def digitVal (c : Char) : Nat := c.toNat - 48

def num2 (a b : Char) : Nat := digitVal a * 10 + digitVal b

def isLeapYear (y : Nat) : Bool :=
  (y % 4 == 0 && y % 100 != 0) || y % 400 == 0

def daysInMonth (y m : Nat) : Nat :=
  if m == 2 then (if isLeapYear y then 29 else 28)
  else if m == 4 || m == 6 || m == 9 || m == 11 then 30
  else 31

/-- Strictly monotone encoding of valid calendar fields (UTC). -/
def timeKey (y mo d h mi s : Nat) : Nat :=
  ((((y * 16 + mo) * 32 + d) * 24 + h) * 60 + mi) * 60 + s

def parseRFC3339twenty : List Char → Option Nat
  | [y1, y2, y3, y4, a1, m1, m2, a2, d1, d2, a3,
     h1, h2, a4, n1, n2, a5, s1, s2, a6] =>
    if a1 == '-' && a2 == '-' && a3 == 'T' && a4 == ':' && a5 == ':' && a6 == 'Z'
        && y1.isDigit && y2.isDigit && y3.isDigit && y4.isDigit
        && m1.isDigit && m2.isDigit && d1.isDigit && d2.isDigit
        && h1.isDigit && h2.isDigit && n1.isDigit && n2.isDigit
        && s1.isDigit && s2.isDigit then
      let y := num2 y1 y2 * 100 + num2 y3 y4
      let mo := num2 m1 m2
      let d := num2 d1 d2
      let h := num2 h1 h2
      let mi := num2 n1 n2
      let s := num2 s1 s2
      if 1 ≤ mo ∧ mo ≤ 12 ∧ 1 ≤ d ∧ d ≤ daysInMonth y mo ∧
          h ≤ 23 ∧ mi ≤ 59 ∧ s ≤ 59 then
        some (timeKey y mo d h mi s)
      else none
    else none
  | _ => none

/-- The retention condition of spec section 4.4: a line is kept iff it is
non-empty, its leading 20 bytes parse as RFC3339, and the parsed time is
strictly after the cutoff. -/
def keepLine (cutoff : Nat) (e : List Char) : Bool :=
  !e.isEmpty &&
    match parseRFC3339twenty (e.take 20) with
    | some t => decide (cutoff < t)
    | none => false

/-- The `for _, entry := range bytes.Split(...)` loop of `cleanupOldLogs`.
An empty entry is skipped (`len(entry) == 0`); on a non-empty entry the code
evaluates `entry[:20]`, which panics when the entry is shorter than 20 bytes
(`bytes.Split` caps each piece's capacity at its length), aborting the cycle —
modelled by `none`. Otherwise the entry is kept iff its 20-byte prefix parses
and is after the cutoff. -/
def cleanupPass (cutoff : Nat) : List (List Char) → Option (List (List Char))
  | [] => some []
  | e :: es =>
    if e.length = 0 then cleanupPass cutoff es
    else if e.length < 20 then none
    else
      match parseRFC3339twenty (e.take 20) with
      | some t =>
        if cutoff < t then (cleanupPass cutoff es).map (e :: ·)
        else cleanupPass cutoff es
      | none => cleanupPass cutoff es

/-- One compaction cycle on a given file content: `none` when the cycle
panics, otherwise the bytes written back by `os.WriteFile`. -/
def cleanupOldLogs (cutoff : Nat) (content : List Char) : Option (List Char) :=
  (cleanupPass cutoff (splitLines content)).map joinNL

/-! ### The logging sink (`setupLogging`, src/main.go lines 88-89)

`log.SetFlags(log.LstdFlags | log.Lshortfile)` makes every appended line
begin with `YYYY/MM/DD HH:MM:SS file:line: ` before the message payload. -/

/-- Zero-padded decimal of width `w` (the log package's `itoa`). -/
def padZeros (w n : Nat) : List Char :=
  List.replicate (w - (Nat.toDigits 10 n).length) '0' ++ Nat.toDigits 10 n

/-- A line as appended by the process's logging sink under
`log.LstdFlags | log.Lshortfile` (without the trailing newline, i.e. as it
appears after `bytes.Split`). -/
def logSinkLine (y mo d h mi s : Nat) (file : List Char) (line : Nat)
    (msg : List Char) : List Char :=
  padZeros 4 y ++ '/' :: padZeros 2 mo ++ '/' :: padZeros 2 d ++ ' ' ::
  padZeros 2 h ++ ':' :: padZeros 2 mi ++ ':' :: padZeros 2 s ++ ' ' ::
  file ++ ':' :: Nat.toDigits 10 line ++ ':' :: ' ' :: msg

/-! ### Lemmas about splitting and joining -/

theorem splitLines_ne_nil (c : List Char) : splitLines c ≠ [] := by
  cases c with
  | nil => simp [splitLines]
  | cons a rest =>
    simp only [splitLines]
    split
    · simp
    · cases h : splitLines rest <;> simp [consHead]

theorem mem_consHead {c : Char} {S : List (List Char)} {e : List Char}
    (h : e ∈ consHead c S) :
    (∃ l ls, S = l :: ls ∧ (e = c :: l ∨ e ∈ ls)) ∨ (S = [] ∧ e = [c]) := by
  cases S with
  | nil => right; simpa [consHead] using h
  | cons l ls =>
    left
    refine ⟨l, ls, rfl, ?_⟩
    simpa [consHead] using h

theorem mem_splitLines_no_newline :
    ∀ (c : List Char), ∀ e ∈ splitLines c, '\n' ∉ e := by
  intro c
  induction c with
  | nil => intro e he; simp [splitLines] at he; simp [he]
  | cons a rest ih =>
    intro e he
    simp only [splitLines] at he
    split at he
    · rcases List.mem_cons.mp he with h | h
      · simp [h]
      · exact ih e h
    · rcases mem_consHead he with ⟨l, ls, hS, h | h⟩ | ⟨_, h⟩
      · subst h
        intro hmem
        rcases List.mem_cons.mp hmem with h | h
        · rename_i hne; exact hne h.symm
        · exact ih l (hS ▸ List.mem_cons_self l ls) h
      · exact ih e (hS ▸ List.mem_cons_of_mem l h)
      · subst h
        intro hmem
        rcases List.mem_singleton.mp hmem with h
        rename_i hne _; exact hne h.symm

theorem splitLines_append (k rest : List Char) (h : '\n' ∉ k) :
    splitLines (k ++ '\n' :: rest) = k :: splitLines rest := by
  induction k with
  | nil => simp [splitLines]
  | cons a k ih =>
    have ha : a ≠ '\n' := fun hEq => h (hEq ▸ List.mem_cons_self a k)
    have hk : '\n' ∉ k := fun hm => h (List.mem_cons_of_mem a hm)
    simp [splitLines, ha, ih hk, consHead]

theorem splitLines_joinNL (ks : List (List Char)) (h : ∀ k ∈ ks, '\n' ∉ k) :
    splitLines (joinNL ks) = ks ++ [[]] := by
  induction ks with
  | nil => simp [joinNL, splitLines]
  | cons k ks ih =>
    have hk : '\n' ∉ k := h k (List.mem_cons_self k ks)
    have hks : ∀ k' ∈ ks, '\n' ∉ k' := fun k' hm => h k' (List.mem_cons_of_mem k hm)
    simp [joinNL, splitLines_append k (joinNL ks) hk, ih hks]

/-! ### Lemmas about the compaction pass -/

theorem cleanupPass_sublist (cutoff : Nat) :
    ∀ (ls ks : List (List Char)),
      cleanupPass cutoff ls = some ks → ks.Sublist ls := by
  intro ls
  induction ls with
  | nil =>
    intro ks h
    simp only [cleanupPass, Option.some.injEq] at h
    simp [← h]
  | cons e es ih =>
    intro ks h
    simp only [cleanupPass] at h
    split at h
    · exact (ih ks h).cons e
    · split at h
      · exact absurd h (by simp)
      · split at h
        · split at h
          · rcases Option.map_eq_some'.mp h with ⟨ks', hks', rfl⟩
            exact (ih ks' hks').cons₂ e
          · exact (ih ks h).cons e
        · exact (ih ks h).cons e

theorem cleanupPass_keep (cutoff : Nat) :
    ∀ (ls ks : List (List Char)),
      cleanupPass cutoff ls = some ks →
      ∀ k ∈ ks, 20 ≤ k.length ∧
        ∃ t, parseRFC3339twenty (k.take 20) = some t ∧ cutoff < t := by
  intro ls
  induction ls with
  | nil =>
    intro ks h
    simp only [cleanupPass, Option.some.injEq] at h
    simp [← h]
  | cons e es ih =>
    intro ks h
    simp only [cleanupPass] at h
    split at h
    · exact ih ks h
    · split at h
      · exact absurd h (by simp)
      · split at h
        next t ht =>
          split at h
          · rcases Option.map_eq_some'.mp h with ⟨ks', hks', rfl⟩
            intro k hk
            rcases List.mem_cons.mp hk with rfl | hk
            · exact ⟨by omega, t, ht, by assumption⟩
            · exact ih ks' hks' k hk
          · exact ih ks h
        next ht => exact ih ks h

theorem cleanupPass_restore (cutoff : Nat) :
    ∀ ks : List (List Char),
      (∀ k ∈ ks, 20 ≤ k.length ∧
        ∃ t, parseRFC3339twenty (k.take 20) = some t ∧ cutoff < t) →
      cleanupPass cutoff (ks ++ [[]]) = some ks := by
  intro ks
  induction ks with
  | nil => intro _; rfl
  | cons k ks ih =>
    intro h
    obtain ⟨hlen, t, hp, hc⟩ := h k (List.mem_cons_self k ks)
    have hne : ¬ k.length = 0 := by omega
    have hnlt : ¬ k.length < 20 := by omega
    have hrest := ih fun k' hm => h k' (List.mem_cons_of_mem k hm)
    simp [cleanupPass, hne, hnlt, hp, hc, hrest]

theorem keepLine_eq_true_iff (cutoff : Nat) (e : List Char) :
    keepLine cutoff e = true ↔
      e ≠ [] ∧ ∃ t, parseRFC3339twenty (e.take 20) = some t ∧ cutoff < t := by
  unfold keepLine
  cases hp : parseRFC3339twenty (e.take 20) with
  | none => simp [hp]
  | some t =>
    simp only [Bool.and_eq_true, Bool.not_eq_true', decide_eq_true_eq]
    constructor
    · rintro ⟨h1, h2⟩
      refine ⟨?_, t, rfl, h2⟩
      intro hEq; subst hEq; simp at h1
    · rintro ⟨h1, t', ht', h2⟩
      obtain rfl : t = t' := by simpa using ht'
      refine ⟨?_, h2⟩
      simpa [List.isEmpty_iff] using h1

theorem cleanupPass_eq_filter (cutoff : Nat) :
    ∀ ls : List (List Char),
      (∀ e ∈ ls, e = [] ∨ 20 ≤ e.length) →
      cleanupPass cutoff ls = some (ls.filter (keepLine cutoff)) := by
  intro ls
  induction ls with
  | nil => intro _; rfl
  | cons e es ih =>
    intro h
    have hrest := ih fun e' hm => h e' (List.mem_cons_of_mem e hm)
    rcases h e (List.mem_cons_self e es) with rfl | hlen
    · simp [cleanupPass, List.filter, keepLine, hrest]
    · have hne : ¬ e.length = 0 := by omega
      have hnlt : ¬ e.length < 20 := by omega
      have hnenil : e ≠ [] := by
        intro hEq; subst hEq; simp at hne
      cases hp : parseRFC3339twenty (e.take 20) with
      | none =>
        have hkeep : keepLine cutoff e = false := by
          simp [keepLine, hp]
        simp [cleanupPass, hne, hnlt, hp, hrest, List.filter, hkeep]
      | some t =>
        by_cases hc : cutoff < t
        · have hkeep : keepLine cutoff e = true := by
            simp [keepLine, hp, hc, hnenil]
          simp [cleanupPass, hne, hnlt, hp, hc, hrest, List.filter, hkeep]
        · have hkeep : keepLine cutoff e = false := by
            simp [keepLine, hp, hc]
          simp [cleanupPass, hne, hnlt, hp, hc, hrest, List.filter, hkeep]

/-! ### Claim theorems -/

/-- Claim C1, as frozen, is false: with observed levels `[high, high]` there
are zero level changes between consecutive polls, yet the loop emits one
notification, because `lastState` starts at the zero value `Low` and the
first `high` reading counts as a change. -/
theorem c1_counterexample :
    (monitorRun initialMonitor [high, high]).2.length = 1 ∧
    adjChanges [high, high] = 0 := by decide

/-- Claim C1 (amended): taking LOW — the zero value at which `lastState`
starts — as the level before the first tick, the monitor loop emits exactly
one notification (which is also the logged line) per tick at which the
observed level differs from the previous level and nothing at an unchanged
tick; on a change it stores `currentLevel == LOW` in the registry and the
message is `"Switch state changed to: <newState>"`. -/
theorem c1_monitor_messages (ls : List Level) :
    (monitorRun initialMonitor ls).2 = specEmits low ls ∧
    (monitorRun initialMonitor ls).2.length = adjChanges (low :: ls) ∧
    (∀ (s : MonitorState) (l : Level), l ≠ s.lastState →
      monitorStep s l = (⟨l, l == low⟩, some (switchMessage (l == low)))) ∧
    (∀ (s : MonitorState) (l : Level), l = s.lastState →
      monitorStep s l = (s, none)) := by
  refine ⟨monitorRun_eq_specEmits ls initialMonitor, ?_, ?_, ?_⟩
  · rw [monitorRun_eq_specEmits ls initialMonitor]
    exact specEmits_length ls low
  · intro s l h; simp [monitorStep, h]
  · intro s l h; simp [monitorStep, h]

/-- Witness for C1 at the concrete poll sequence `[high, high, low]` and
concrete changed/unchanged steps. -/
theorem c1_monitor_messages_witness :
    (monitorRun initialMonitor [high, high, low]).2 =
      specEmits low [high, high, low] ∧
    monitorStep initialMonitor high =
      (⟨high, high == low⟩, some (switchMessage (high == low))) ∧
    monitorStep ⟨high, false⟩ high = (⟨high, false⟩, none) :=
  ⟨(c1_monitor_messages [high, high, low]).1,
   (c1_monitor_messages []).2.2.1 initialMonitor high (by decide),
   (c1_monitor_messages []).2.2.2 ⟨high, false⟩ high rfl⟩

/-- Claim C2, as frozen, is false: the initial `lastState` is the `gpio.Level`
zero value, which equals LOW rather than a sentinel distinct from both levels,
so when the first polled level is HIGH the very first iteration does emit a
notification. -/
theorem c2_counterexample :
    initialMonitor.lastState = low ∧
    (monitorStep initialMonitor high).2 ≠ none := by decide

/-- Claim C2 (amended): `lastState` is initialized to the `gpio.Level` zero
value, which coincides with LOW; consequently the first poll iteration emits
no notification exactly when the initial level is LOW, and an initial HIGH
level is reported as a transition on the very first poll. -/
theorem c2_first_poll :
    initialMonitor.lastState = low ∧
    (monitorStep initialMonitor low).2 = none ∧
    (monitorStep initialMonitor high).2 =
      some (switchMessage (high == low)) := by decide

/-- Claim C6: reading the switch state reflects the most recent registry
write — `GET /status` answers 200 with `\x7b"state": v\x7d` for the stored
boolean `v`, and immediately after a monitor transition the stored boolean
is `currentLevel == LOW`, so a transition to `true` is reported as
`\x7b"state": true\x7d`. -/
theorem c6_status_after_transition (s : MonitorState) (l : Level)
    (h : l ≠ s.lastState) :
    (∀ v : Bool, getStatus v = (200, statusJSON v)) ∧
    (monitorStep s l).1.state = (l == low) ∧
    getStatus (monitorStep s l).1.state = (200, statusJSON (l == low)) ∧
    (l = low → getStatus (monitorStep s l).1.state = (200, statusJSON true)) := by
  refine ⟨fun v => rfl, ?_, ?_, ?_⟩
  · simp [monitorStep, h]
  · simp [monitorStep, h, getStatus]
  · intro hl; subst hl
    unfold monitorStep
    rw [if_pos h]
    rfl

/-- Witness for C6: a transition from HIGH to LOW stores `true` and
`GET /status` then returns `\x7b"state": true\x7d`. -/
theorem c6_status_after_transition_witness :
    getStatus (monitorStep ⟨high, false⟩ low).1.state = (200, statusJSON true) :=
  (c6_status_after_transition ⟨high, false⟩ low (by decide)).2.2.2 rfl

/-- Claim C7: opting in is idempotent — performing `optInUsers[userID] = true`
twice yields the same registry as performing it once, and the registry then
holds exactly one entry for that identifier. -/
theorem c7_optIn_idempotent (id : String) (users : OptInSet) :
    optIn id (optIn id users) = optIn id users ∧
    id ∈ optIn id users ∧
    (optIn id users).val.count id = 1 := by
  refine ⟨Finset.insert_idem id users, Finset.mem_insert_self id users, ?_⟩
  exact Multiset.count_eq_one_of_mem (optIn id users).nodup
    (Finset.mem_insert_self id users)

/-- Claim C8: `POST /optin` replies 401 and leaves the opt-in registry
untouched when the token mismatches or `user_id` is empty; otherwise it adds
`user_id` and replies 200 with the ephemeral acknowledgment JSON. -/
theorem c8_handleOptIn (userID token : String) (users : OptInSet) :
    (userID = "" ∨ token ≠ slackVerificationToken →
      handleOptIn userID token users = (401, none, users)) ∧
    (userID ≠ "" → token = slackVerificationToken →
      handleOptIn userID token users =
        (200,
         some ⟨"ephemeral",
               "You have opted in for notifications, <@" ++ userID ++ ">."⟩,
         optIn userID users) ∧
      userID ∈ (handleOptIn userID token users).2.2) := by
  constructor
  · intro h; simp [handleOptIn, h]
  · intro h1 h2
    have hcond : ¬ (userID = "" ∨ token ≠ slackVerificationToken) := by
      push_neg
      exact ⟨h1, h2⟩
    constructor
    · simp [handleOptIn, hcond]
    · simp [handleOptIn, hcond, optIn]

/-- Witness for C8: a wrong token is rejected without mutating the registry,
and a correct token with a non-empty `user_id` inserts the user and returns
the acknowledgment. -/
theorem c8_handleOptIn_witness :
    handleOptIn "U1" "wrong-token" {"U0"} = (401, none, {"U0"}) ∧
    handleOptIn "U1" slackVerificationToken ∅ =
      (200,
       some ⟨"ephemeral", "You have opted in for notifications, <@U1>."⟩,
       optIn "U1" ∅) :=
  ⟨(c8_handleOptIn "U1" "wrong-token" {"U0"}).1 (Or.inr (by decide)),
   ((c8_handleOptIn "U1" slackVerificationToken ∅).2 (by decide) rfl).1⟩

/-- The spec's three-line example store, as file content. -/
def exampleContent : List Char :=
  ("2023-01-01T00:00:00Z hello\n\nnot-a-timestamp-but-20chars!!\n").toList

/-- A cutoff strictly before 2023-01-01. -/
def exampleCutoff : Nat := timeKey 2022 12 31 23 59 59

/-- Claim C3, as frozen, is false: in a store whose first line is the 4-byte
line "logX" followed by a line that satisfies the keep condition, the cycle
aborts (`entry[:20]` panics on the short line) and nothing is kept, although
the claim says the well-formed recent line is kept. -/
theorem c3_counterexample :
    ("2023-01-01T00:00:00Z hello").toList ∈
        splitLines (("logX\n2023-01-01T00:00:00Z hello\n").toList) ∧
    keepLine 0 (("2023-01-01T00:00:00Z hello").toList) = true ∧
    cleanupOldLogs 0 (("logX\n2023-01-01T00:00:00Z hello\n").toList) = none := by
  decide

/-- Claim C3 (amended): provided every non-empty line of the store is at
least 20 bytes long, a compaction cycle keeps a line iff it is non-empty,
its leading 20 bytes parse as RFC3339, and the parsed time is strictly after
the cutoff — and the kept lines are written back joined by newlines. (A
non-empty line shorter than 20 bytes instead aborts the whole cycle; see C4.)
The spec's concrete example holds: see the witness. -/
theorem c3_cleanup_keeps_iff (cutoff : Nat) (content : List Char)
    (h : ∀ e ∈ splitLines content, e = [] ∨ 20 ≤ e.length) :
    cleanupOldLogs cutoff content =
      some (joinNL ((splitLines content).filter (keepLine cutoff))) ∧
    ∀ e, e ∈ (splitLines content).filter (keepLine cutoff) ↔
      (e ∈ splitLines content ∧ e ≠ [] ∧
        ∃ t, parseRFC3339twenty (e.take 20) = some t ∧ cutoff < t) := by
  constructor
  · unfold cleanupOldLogs
    rw [cleanupPass_eq_filter cutoff (splitLines content) h]
    rfl
  · intro e
    rw [List.mem_filter]
    constructor
    · rintro ⟨h1, h2⟩
      rcases (keepLine_eq_true_iff cutoff e).mp h2 with ⟨hne, t, hp, hc⟩
      exact ⟨h1, hne, t, hp, hc⟩
    · rintro ⟨h1, hne, t, hp, hc⟩
      exact ⟨h1, (keepLine_eq_true_iff cutoff e).mpr ⟨hne, t, hp, hc⟩⟩

/-- Witness for C3 at the spec's example: with lines
`["2023-01-01T00:00:00Z hello", "", "not-a-timestamp-but-20chars!!"]` and a
cutoff before 2023-01-01, exactly the first line is kept. -/
theorem c3_cleanup_keeps_iff_witness :
    cleanupOldLogs exampleCutoff exampleContent =
      some (joinNL ((splitLines exampleContent).filter (keepLine exampleCutoff))) ∧
    joinNL ((splitLines exampleContent).filter (keepLine exampleCutoff)) =
      ("2023-01-01T00:00:00Z hello\n").toList :=
  ⟨(c3_cleanup_keeps_iff exampleCutoff exampleContent (by decide)).1, by decide⟩

/-- Claim C4's fail-open intent is contradicted by the code: on a store whose
only line is the 3-byte line "log", the cycle evaluates `entry[:20]` with a
capacity-3 slice and panics, aborting the process instead of silently
dropping the malformed line. -/
theorem c4_short_line_aborts :
    cleanupOldLogs 0 (("log\n").toList) = none ∧
    ("log").toList ∈ splitLines (("log\n").toList) ∧
    (("log").toList).length < 20 := by decide

/-- Claim C5: compaction is idempotent — whenever a cycle completes with
output `out`, running the cycle again on `out` with the same cutoff
reproduces `out` byte for byte. -/
theorem c5_cleanup_idempotent (cutoff : Nat) (content out : List Char)
    (h : cleanupOldLogs cutoff content = some out) :
    cleanupOldLogs cutoff out = some out := by
  unfold cleanupOldLogs at h
  obtain ⟨ks, hks, rfl⟩ := Option.map_eq_some'.mp h
  have hsub := cleanupPass_sublist cutoff (splitLines content) ks hks
  have hkeep := cleanupPass_keep cutoff (splitLines content) ks hks
  have hnl : ∀ k ∈ ks, '\n' ∉ k := fun k hk =>
    mem_splitLines_no_newline content k (hsub.subset hk)
  unfold cleanupOldLogs
  rw [splitLines_joinNL ks hnl, cleanupPass_restore cutoff ks hkeep]
  rfl

def c5content : List Char :=
  ("2024-06-01T12:00:00Z up\nbad-line-with-20-chars-x\n").toList

def c5out : List Char := ("2024-06-01T12:00:00Z up\n").toList

/-- Witness for C5 on a concrete two-line store. -/
theorem c5_cleanup_idempotent_witness :
    cleanupOldLogs (timeKey 2024 1 1 0 0 0) c5content = some c5out ∧
    cleanupOldLogs (timeKey 2024 1 1 0 0 0) c5out = some c5out :=
  ⟨by decide,
   c5_cleanup_idempotent (timeKey 2024 1 1 0 0 0) c5content c5out (by decide)⟩

/-- A line as the logging sink writes it: `log.Println` at 2026/10/11
09:30:00 from `main.go:135`. -/
def c9line : List Char :=
  logSinkLine 2026 10 11 9 30 0 (("main.go").toList) 135
    (("Switch state changed to: true").toList)

/-- Claim C9 fails on the code: the sink is configured with `log.LstdFlags`,
so an appended line begins `2026/10/11 09:30:00 main.go:135: ` — its leading
20 bytes do not parse as RFC3339, and compaction therefore drops every line
the process writes, at every cutoff. -/
theorem c9_log_sink_not_rfc3339 :
    parseRFC3339twenty (c9line.take 20) = none ∧
    ∀ cutoff : Nat, keepLine cutoff c9line = false := by
  have hp : parseRFC3339twenty (c9line.take 20) = none := by decide
  refine ⟨hp, fun cutoff => ?_⟩
  simp [keepLine, hp]

/-- Claim C10: whenever a compaction cycle completes, the kept entries form
an order-preserving subsequence of the input's lines, each written back
unmodified and terminated by a single newline, and nothing else appears in
the output. -/
theorem c10_cleanup_subsequence (cutoff : Nat) (content : List Char)
    (ks : List (List Char))
    (h : cleanupPass cutoff (splitLines content) = some ks) :
    ks.Sublist (splitLines content) ∧
    cleanupOldLogs cutoff content = some (joinNL ks) :=
  ⟨cleanupPass_sublist cutoff (splitLines content) ks h,
   by unfold cleanupOldLogs; rw [h]; rfl⟩

def c10content : List Char :=
  ("2030-03-03T03:03:03Z a\n\nxxxx-not-a-timestamp-yy\n2001-01-01T01:01:01Z old\n").toList

def c10kept : List (List Char) := [("2030-03-03T03:03:03Z a").toList]

/-- Witness for C10 on a store mixing a recent line, an empty line, a
malformed line and an expired line. -/
theorem c10_cleanup_subsequence_witness :
    c10kept.Sublist (splitLines c10content) ∧
    cleanupOldLogs (timeKey 2020 1 1 0 0 0) c10content = some (joinNL c10kept) :=
  c10_cleanup_subsequence (timeKey 2020 1 1 0 0 0) c10content c10kept (by decide)

end SpaceStatus
